import Mathlib

/-!
Verification of the document-generator emission pipeline.

This file gives a shallow embedding, in Lean 4, of the algorithmic core of
the repository: the Schema Manager's identifier sanitization and padron
bulk load (`backend/app/core/padron_manager.py`), the PDF renderer's
text-fit algorithm (`backend/app/utils/pdf_generator.py`), and the
Emission Engine (`backend/app/core/emission_engine.py`): CSV loading and
validation, padron matching, derived-field computation (PMO and visita
sequence counters, barcode payload), batch processing and audit
recording.  Pure Python functions become Lean functions; the relational
stores (the `emisiones_acumuladas` audit table and the dynamic padron
table) become explicit list-valued state threaded through the
operations.  Machine integers are modelled as `Int`/`Nat` (Python ints
are unbounded, so no wrap-around is needed); fallible code returns
`Except`.  Floating-point page metrics are modelled exactly, in integer fifths of
a ReportLab point, which makes the renderer's 1.2 line-height factor
integral.
-/

namespace DocGen

/-! ## Python-semantics helpers

Small executable models of the Python builtins the source relies on:
`str.strip`, `int(str)`, dictionary lookup in `dict`s modelled as
association lists, and list chunking via slicing. -/

/-- Characters treated as whitespace by Python's `str.strip()` /
`int()` (ASCII subset; exotic Unicode spaces are not used by the repo's
data and are not modelled). -/
def pyIsSpace (c : Char) : Bool :=
  c = ' ' || c = '\t' || c = '\n' || c = '\r' || c = '\x0b' || c = '\x0c'

/-- Python `str.strip()`: remove leading and trailing whitespace. -/
def pyStrip (s : String) : String :=
  ((s.toList.dropWhile pyIsSpace).reverse.dropWhile pyIsSpace).reverse.asString

/-- Python `s.startswith(pre)`. -/
def pyStartsWith (pre s : String) : Bool :=
  pre.toList.isPrefixOf s.toList

/-- Python slicing `s[n:]`. -/
def pyDropChars (n : Nat) (s : String) : String :=
  (s.toList.drop n).asString

/-- Python `text.split()` (no separator): split on whitespace runs,
dropping empty pieces.  `acc` carries the current word reversed. -/
def splitWsAux : List Char → List Char → List String
  | [], acc => if acc.isEmpty then [] else [acc.reverse.asString]
  | c :: rest, acc =>
      if pyIsSpace c then
        if acc.isEmpty then splitWsAux rest []
        else acc.reverse.asString :: splitWsAux rest []
      else splitWsAux rest (c :: acc)

/-- Python `text.split()`. -/
def splitWs (s : String) : List String :=
  splitWsAux s.toList []

/-- Python `' '.join(words)`. -/
def joinSpace (ws : List String) : String :=
  match ws with
  | [] => ""
  | w :: rest => rest.foldl (fun a x => a ++ " " ++ x) w

/-- Fold a list of decimal digit characters into a natural number. -/
def digitsToNat (cs : List Char) : Nat :=
  cs.foldl (fun acc c => 10 * acc + (c.toNat - 48)) 0

/-- Parse a nonempty all-digit character list, as used inside `int()`. -/
def parseDigits (cs : List Char) : Option Nat :=
  if cs ≠ [] ∧ cs.all Char.isDigit then some (digitsToNat cs) else none

/-- Python `int(s)` on a decimal string: optional surrounding
whitespace, optional single sign, then one or more digits; anything else
raises `ValueError`, modelled as `none`.  (Underscore digit grouping,
accepted by CPython, is not used by the repo's data and not modelled.) -/
def pyParseInt (s : String) : Option Int :=
  let cs := ((s.toList.dropWhile pyIsSpace).reverse.dropWhile pyIsSpace).reverse
  match cs with
  | '+' :: rest => (parseDigits rest).map (fun n => (n : Int))
  | '-' :: rest => (parseDigits rest).map (fun n => -(n : Int))
  | rest => (parseDigits rest).map (fun n => (n : Int))

/-- First-match lookup in an association list (Python `dict[k]` /
`dict.get(k)` for dicts built by insertion without key repetition). -/
def lookupA (k : String) (l : List (String × α)) : Option α :=
  match l with
  | [] => none
  | (k', v) :: rest => if k' = k then some v else lookupA k rest

/-- Whether an association list binds a key (Python `k in dict`). -/
def hasKeyA (k : String) (l : List (String × α)) : Bool :=
  (lookupA k l).isSome

/-- Last-match lookup: models a dict comprehension `{f x : x for x in l}`
where a later element with the same key overwrites an earlier one. -/
def lookupLast (k : String) (l : List (String × α)) : Option α :=
  match l with
  | [] => none
  | (k', v) :: rest =>
      match lookupLast k rest with
      | some w => some w
      | none => if k' = k then some v else none

/-- Python list slicing `l[i:i+n], l[i+n:i+2n], ...`: fixed-size chunks. -/
def chunkList (n : Nat) (l : List α) : List (List α) :=
  match l with
  | [] => []
  | x :: xs =>
      if h : 0 < n then
        (x :: xs).take n :: chunkList n ((x :: xs).drop n)
      else []
termination_by l.length
decreasing_by
  simp [List.length_drop]
  omega

/-! ## Schema Manager: identifier sanitization
(`padron_manager.py`, `sanitize_table_name` / `sanitize_column_name`)

`re.sub(r'[^a-zA-Z0-9_]', '_', name)` keeps ASCII letters (both cases),
digits and underscores and replaces every other character by `_`.
`str.lower()` is applied after the substitution, so only ASCII
characters remain by then and lowering is the A-Z → a-z shift. -/

/-- The character class `[a-zA-Z0-9_]` of the sanitizing regex. -/
def isAsciiIdentChar (c : Char) : Bool :=
  (65 ≤ c.toNat && c.toNat ≤ 90) || (97 ≤ c.toNat && c.toNat ≤ 122) ||
  (48 ≤ c.toNat && c.toNat ≤ 57) || c.toNat = 95

/-- One character of `re.sub(r'[^a-zA-Z0-9_]', '_', ·)`. -/
def keepIdentChar (c : Char) : Char :=
  if isAsciiIdentChar c then c else '_'

/-- `str.lower()` on one character.  The sources apply `lower()` after
the regex substitution, so only ASCII characters remain and lowering is
the `A-Z → a-z` shift. -/
def pyLowerChar (c : Char) : Char :=
  if 65 ≤ c.toNat && c.toNat ≤ 90 then Char.ofNat (c.toNat + 32) else c

/-- Python `s[0].isdigit()` on the sanitized (hence ASCII) name.  The
Python code raises `IndexError` on an empty name; the claims are
stated for nonempty inputs, and the empty case here returns
`false`. -/
def headIsDigit (cs : List Char) : Bool :=
  match cs with
  | [] => false
  | c :: _ => 48 ≤ c.toNat && c.toNat ≤ 57

/-- `PadronManager.sanitize_table_name`: replace disallowed characters,
prefix `t_` when the result starts with a digit, truncate to 63
characters (the PostgreSQL identifier limit) and lowercase. -/
def sanitize_table_name (name : String) : String :=
  let s := name.toList.map keepIdentChar
  let s := if headIsDigit s then 't' :: '_' :: s else s
  ((s.take 63).map pyLowerChar).asString

/-- `PadronManager.sanitize_column_name`: replace disallowed
characters, prefix `c_` when the result starts with a digit and
lowercase.  Note: unlike `sanitize_table_name`, there is no `[:63]`
truncation step in the source. -/
def sanitize_column_name (name : String) : String :=
  let s := name.toList.map keepIdentChar
  let s := if headIsDigit s then 'c' :: '_' :: s else s
  (s.map pyLowerChar).asString

/-- A character allowed in a sanitized identifier: `[a-z0-9_]`
(which is in particular never an uppercase letter). -/
def goodIdentChar (c : Char) : Bool :=
  (97 ≤ c.toNat && c.toNat ≤ 122) || (48 ≤ c.toNat && c.toNat ≤ 57) || c.toNat = 95

/-! ## Schema Manager: padron bulk load
(`padron_manager.py`, `insert_padron_data`)

The dynamic padron table is modelled as a list of rows; each row holds
its declared-column values as an association list plus the system
columns `created_at`, `updated_at` and `is_deleted`.  Timestamps become
abstract `Nat` clock values: `CURRENT_TIMESTAMP` during one load is the
`now` argument.

The source opens one connection (`engine.connect()`, with
`create_engine(..., future=True)` in `database.py`, i.e. SQLAlchemy
2.0-style connections with no statement autocommit), executes every
per-row statement on it, and calls `conn.commit()` exactly once after
the loop.  A `SQLAlchemyError` raised by any statement is logged and
re-raised before that single commit, and closing the connection then
rolls the uncommitted work back.  The model therefore keeps the
committed table separate from the pending (uncommitted) table and
returns the original table whenever the load raises.  Row-level
database errors are modelled by an oracle `failAt` giving the indices
of the statements that raise. -/

/-- One row of a dynamic padron table. -/
structure PRow where
  data : List (String × String)
  created_at : Nat
  updated_at : Nat
  is_deleted : Bool
  deriving Repr, DecidableEq

/-- The `cuenta` column of a row. -/
def PRow.cuentaCol (row : PRow) : Option String :=
  lookupA "cuenta" row.data

/-- `UPDATE ... SET k = :k, ...` for every key of `upd`: the updated
columns take the new values, all other columns keep theirs. -/
def overrideA (base upd : List (String × String)) : List (String × String) :=
  upd ++ base.filter (fun kv => ¬ hasKeyA kv.1 upd)

/-- In-flight state of one `insert_padron_data` call: the pending
(uncommitted) table plus the running `inserted`/`updated` counters. -/
structure PadronState where
  pending : List PRow
  inserted : Nat
  updated : Nat
  deriving Repr, DecidableEq

/-- Process one (column-sanitized) data row, mirroring the body of the
`for _, row in df.iterrows()` loop.  With `merge=True` and a `cuenta`
key: rows whose non-deleted `cuenta` matches are updated in place
(refreshing `updated_at`), otherwise the row is inserted.  Without
merge (or without a `cuenta` key) a plain `INSERT ... ON CONFLICT DO
NOTHING` runs; the only unique constraint of a padron table is the
mandatory unique `cuenta` column (data model §3), so the insert is
skipped exactly when the `cuenta` value already exists in the table. -/
def padronStep (now : Nat) (merge : Bool) (st : PadronState)
    (rdict : List (String × String)) : PadronState :=
  match merge, lookupA "cuenta" rdict with
  | true, some c =>
      if st.pending.any (fun row => !row.is_deleted && row.cuentaCol = some c) then
        { st with
          pending := st.pending.map (fun row =>
            if !row.is_deleted && row.cuentaCol = some c then
              { row with data := overrideA row.data rdict, updated_at := now }
            else row),
          updated := st.updated + 1 }
      else
        { st with
          pending := st.pending ++ [⟨rdict, now, now, false⟩],
          inserted := st.inserted + 1 }
  | _, _ =>
      match lookupA "cuenta" rdict with
      | some c =>
          if st.pending.any (fun row => row.cuentaCol = some c) then st
          else { st with
                 pending := st.pending ++ [⟨rdict, now, now, false⟩],
                 inserted := st.inserted + 1 }
      | none =>
          { st with
            pending := st.pending ++ [⟨rdict, now, now, false⟩],
            inserted := st.inserted + 1 }

/-- The row loop of `insert_padron_data`: `i` is the index of the data
row about to be processed, and `failAt` says which statements raise. -/
def padronLoop (now : Nat) (merge : Bool) (failAt : Nat → Bool) :
    Nat → PadronState → List (List (String × String)) → Except String PadronState
  | _, st, [] => .ok st
  | i, st, r :: rs =>
      if failAt i then .error "SQLAlchemyError"
      else padronLoop now merge failAt (i + 1) (padronStep now merge st r) rs

/-- Sanitize the keys of one data row
(`df.columns = [sanitize_column_name(col) for col in df.columns]`). -/
def sanitizeKeys (r : List (String × String)) : List (String × String) :=
  r.map (fun kv => (sanitize_column_name kv.1, kv.2))

/-- `PadronManager.insert_padron_data`.  Returns the outcome (counts on
success, the propagated exception otherwise, which carries no counts)
together with the committed table: the pending table on the
post-loop `conn.commit()`, the untouched original table when any row's
statement raised before that commit. -/
def insert_padron_data (now : Nat) (failAt : Nat → Bool) (table : List PRow)
    (data : List (List (String × String))) (merge : Bool) :
    Except String (Nat × Nat) × List PRow :=
  match data with
  | [] => (.ok (0, 0), table)
  | _ =>
      match padronLoop now merge failAt 0 ⟨table, 0, 0⟩ (data.map sanitizeKeys) with
      | .ok st => (.ok (st.inserted, st.updated), st.pending)
      | .error e => (.error e, table)

/-! ## PDF Renderer: text-fit algorithm
(`pdf_generator.py`, `_insert_text` / `_wrap_text`)

Page metrics are ReportLab points, represented exactly in units of one
fifth of a point so that the `line_height = font_size * 1.2` factor is
integral (`6 * size` fifths); the font size itself is a Python `int`
(in points).  The renderer measures widths through
`canvas.stringWidth(text, font, size)`, modelled as an abstract
measure parameter `sw : String → Nat → Int` (text and size; the font
name is fixed per field and therefore dropped), in the same fifths
unit. -/

/-- `line_height = font_size * 1.2`, in fifths of a point. -/
def lineHeight (size : Nat) : Int := 6 * (size : Int)

/-- `PDFGenerator._wrap_text`: greedy word wrap.  `text.split()` splits
on whitespace runs and drops empty pieces. -/
def wrapText (sw : String → Nat → Int) (text : String) (size : Nat)
    (maxWidth : Int) : List String :=
  let words := splitWs text
  let step := fun (acc : List String × List String) (word : String) =>
    let (lines, current) := acc
    let testLine := joinSpace (current ++ [word])
    if sw testLine size ≤ maxWidth then (lines, current ++ [word])
    else if current ≠ [] then (lines ++ [joinSpace current], [word])
    else (lines, [word])
  let (lines, current) := words.foldl step ([], [])
  if current ≠ [] then lines ++ [joinSpace current] else lines

/-- The `while new_size >= 8 and total_height > height` shrink loop of
`_insert_text`: decrement the size, re-wrap, recompute the total
height, and stop as soon as the size drops below 8 or the wrapped block
fits.  Returns the final size and its wrapped lines. -/
def shrinkLoop (sw : String → Nat → Int) (text : String) (width height : Int) :
    Nat → List String → Nat × List String
  | 0, lines => (0, lines)
  | m + 1, lines =>
      if 8 ≤ m + 1 ∧ (lines.length : Int) * lineHeight (m + 1) > height then
        shrinkLoop sw text width height m (wrapText sw text m width)
      else (m + 1, lines)

/-- What `_insert_text` draws for one field: a single centered line at
the declared size, the wrapped block at the declared size, the wrapped
block at a reduced size, or the 30-character truncation with `"..."`
drawn as one line (at the font size last set on the canvas, which in
that branch is still the declared size). -/
inductive TextDraw where
  | singleLine (text : String) (size : Nat)
  | wrapped (lines : List String) (size : Nat)
  | shrunk (lines : List String) (size : Nat)
  | truncated (text : String) (size : Nat)
  deriving Repr, DecidableEq

/-- `PDFGenerator._insert_text` (the drawing decisions; coordinate
placement is derived from the result below). -/
def insertText (sw : String → Nat → Int) (text : String)
    (width height : Int) (fontSize : Nat) : TextDraw :=
  if sw text fontSize ≤ width then .singleLine text fontSize
  else
    let lines := wrapText sw text fontSize width
    if (lines.length : Int) * lineHeight fontSize ≤ height then
      .wrapped lines fontSize
    else
      let p := shrinkLoop sw text width height fontSize lines
      if 8 ≤ p.1 then .shrunk p.2 p.1
      else .truncated ((text.toList.take 30).asString ++ "...") fontSize

/-- Vertical extent of the drawn text in fifths of a point, using the
code's own height metric: a wrapped block of `n` lines at size `s`
occupies `n * s * 1.2` (the fit test of `_insert_text`), and a single
line drawn centered via `y + (height - font_size) / 2` occupies
`font_size` points. -/
def TextDraw.drawnHeight : TextDraw → Int
  | .singleLine _ size => 5 * (size : Int)
  | .wrapped lines size => (lines.length : Int) * lineHeight size
  | .shrunk lines size => (lines.length : Int) * lineHeight size
  | .truncated _ size => 5 * (size : Int)

/-! ## Emission Engine (`emission_engine.py`)

One `EmissionEngine` instance is scoped to a project, a template, a
user, a document type, a run PMO label and an emission date; these
constructor arguments become `EngineConfig`.  The
`emisiones_acumuladas` audit table becomes a list of `Artifact` rows
(the columns of `EmisionAcumulada` in `models.py` that the engine reads
or writes); timestamps become abstract `Nat` ordering keys.  The
mirror row the engine also inserts into `emisiones_final`, and the
file-size/sha256 columns (filesystem reads), are not needed by any
claim and are omitted. -/

/-- The constructor state of one `EmissionEngine` run. -/
structure EngineConfig where
  proyectoId : Nat
  sesionId : Nat
  /-- Document type (the source documents `N`, `A`, `E`, `CI`). -/
  documento : String
  /-- The run's PMO label, e.g. `"PMO 1"`. -/
  pmo : String
  /-- `fecha_emision.strftime("%Y%m%d")`. -/
  fechaStr : String
  /-- `fecha_emision` as an abstract ordering key. -/
  fechaKey : Nat
  deriving Repr, DecidableEq

/-- One row of `emisiones_acumuladas`.  Note: per `models.py` this
table has a `fecha_generacion` creation timestamp and **no**
`created_at` column. -/
structure Artifact where
  sesion_id : Nat
  proyecto_id : Nat
  cuenta : String
  orden_impresion : Int
  datosJson : List (String × String)
  documento : String
  pmo : String
  fecha_emision : Nat
  visita : String
  codigo_barras : String
  ruta_archivo_pdf : String
  /-- `server_default=func.now()`: creation timestamp. -/
  fecha_generacion : Nat
  deriving Repr, DecidableEq

/-- Fixture constructor used by concrete-input theorems below: an
accumulated artifact with the fields the sequence lookups inspect; the
remaining columns take fixed values. -/
def mkArt (pid : Nat) (cuenta documento pmo visita : String) (fe fg : Nat) : Artifact :=
  { sesion_id := 1, proyecto_id := pid, cuenta := cuenta, orden_impresion := 1,
    datosJson := [], documento := documento, pmo := pmo, fecha_emision := fe,
    visita := visita, codigo_barras := "", ruta_archivo_pdf := "p",
    fecha_generacion := fg }

/-- `SELECT ... WHERE p ORDER BY key DESC LIMIT 1` over the modelled
table; ties on the key resolve to the later row in the list (the SQL
leaves the tie order unspecified). -/
def latestBy (key : Artifact → Nat) (p : Artifact → Bool) (db : List Artifact) :
    Option Artifact :=
  (db.filter p).foldl
    (fun best a =>
      match best with
      | none => some a
      | some b => if key b ≤ key a then some a else some b)
    none

/-- The parse attempted by `_calculate_pmo` on a stored label:
`last_pmo.startswith("PMO ")` and then `int(last_pmo[4:])`. -/
def parsePmoLabel (label : String) : Option Int :=
  if pyStartsWith "PMO " label then pyParseInt (pyDropChars 4 label) else none

/-- The lookup issued by `_calculate_pmo`:
`SELECT pmo FROM emisiones_acumuladas WHERE proyecto_id = :proyecto_id
ORDER BY created_at DESC LIMIT 1`.  `emisiones_acumuladas` has no
`created_at` column (`models.py` declares `fecha_generacion` instead,
and `create_tables.py` builds the table from those models), so
PostgreSQL rejects the statement with an undefined-column error for
every store state; the failure is independent of the arguments. -/
def pmoQuery (_pid : Nat) (_db : List Artifact) : Except String (Option Artifact) :=
  .error "UndefinedColumn: created_at"

/-- `EmissionEngine._calculate_pmo`: look up the latest accumulated
PMO label and add one; the broad `except` turns any error - including
the unconditional undefined-column error of `pmoQuery` - into the
fallback value 1. -/
def calculatePMO (pid : Nat) (db : List Artifact) : Int :=
  match pmoQuery pid db with
  | .error _ => 1
  | .ok none => 1
  | .ok (some a) =>
      match parsePmoLabel a.pmo with
      | some n => n + 1
      | none => 1

/-- What `_calculate_pmo`'s `try` block describes, and spec §4.5
states: read the project's most recent accumulated artifact by
creation time (the table's actual creation-timestamp column is
`fecha_generacion`); if its label parses as `PMO n`, return `n + 1`,
else 1.  A second definition, following the spec's words, kept for
comparison with `calculatePMO` above. -/
def calculatePMOSpec (pid : Nat) (db : List Artifact) : Int :=
  match latestBy (·.fecha_generacion) (fun a => a.proyecto_id == pid) db with
  | none => 1
  | some a =>
      match parsePmoLabel a.pmo with
      | some n => n + 1
      | none => 1

/-- The lookup issued by `_calculate_visita`:
`SELECT documento, visita FROM emisiones_acumuladas WHERE proyecto_id =
:proyecto_id AND cuenta = :cuenta ORDER BY fecha_emision DESC LIMIT 1`
(all referenced columns exist on this table). -/
def visitaQuery (pid : Nat) (cuenta : String) (db : List Artifact) : Option Artifact :=
  latestBy (·.fecha_emision) (fun a => a.proyecto_id == pid && a.cuenta == cuenta) db

/-- `EmissionEngine._calculate_visita`: if the account's most recent
artifact has the same document type and its `visita` starts with the
type, increment `int(last_visita[1:])`; on any failure (no prior row,
different type, or unparsable tail) start at
`f"{documento}1"`.  Note the source slices `[1:]` - everything after
the **first character** - regardless of the document type's length. -/
def calculateVisita (documento : String) (cuenta : String) (pid : Nat)
    (db : List Artifact) : String :=
  match visitaQuery pid cuenta db with
  | none => documento ++ "1"
  | some a =>
      if a.documento = documento then
        if pyStartsWith documento a.visita then
          match pyParseInt (pyDropChars 1 a.visita) with
          | some n => documento ++ toString (n + 1)
          | none => documento ++ "1"
        else documento ++ "1"
      else documento ++ "1"

/-- `EmissionEngine._generate_barcode`:
`f"*{cuenta}*{fecha_str}*{visita}*"`. -/
def generateBarcode (cfg : EngineConfig) (cuenta visita : String) : String :=
  "*" ++ cuenta ++ "*" ++ cfg.fechaStr ++ "*" ++ visita ++ "*"

/-- A padron column value as seen by the engine (the typed result of
the padron-table join).  Python floats are not used by the claims and
are not modelled; dates carry day/month/year. -/
inductive PValue where
  | vnull
  | vstr (s : String)
  | vint (n : Int)
  | vdate (d m y : Nat)
  deriving Repr, DecidableEq

/-- ASCII `str.lower()`. -/
def pyLower (s : String) : String :=
  (s.toList.map pyLowerChar).asString

/-- Python `pat in s`: substring containment. -/
def containsSub (pat s : String) : Bool :=
  s.toList.tails.any (fun t => pat.toList.isPrefixOf t)

/-- The substrings that make `_apply_formats` treat a numeric column
as money. -/
def moneyKeys : List String := ["monto", "importe", "valor", "total"]

/-- Zero-pad to two digits (`strftime` `%d` / `%m`). -/
def pad2 (n : Nat) : String :=
  if n < 10 then "0" ++ toString n else toString n

/-- `value.strftime("%d/%m/%Y")`. -/
def pyFormatDate (d m y : Nat) : String :=
  pad2 d ++ "/" ++ pad2 m ++ "/" ++ toString y

/-- Insert thousands separators into a digit list
(most-significant digit first). -/
def groupThousands (digits : List Char) : List Char :=
  (List.intercalate [','] (chunkList 3 digits.reverse)).reverse

/-- `f"${value:,.2f}"` for an integral value: dollar prefix, grouped
digits, two decimal places. -/
def pyFormatMoney (n : Int) : String :=
  "$" ++ (if n < 0 then "-" else "") ++
    (groupThousands (toString n.natAbs).toList).asString ++ ".00"

/-- One value of `EmissionEngine._apply_formats`: `None` becomes `""`,
dates are rendered `DD/MM/YYYY`, numeric values whose key contains a
money keyword are money-formatted, everything else is `str(value)`. -/
def formatValue (key : String) (v : PValue) : String :=
  match v with
  | .vnull => ""
  | .vdate d m y => pyFormatDate d m y
  | .vint n =>
      if moneyKeys.any (fun mk => containsSub mk (pyLower key)) then pyFormatMoney n
      else toString n
  | .vstr s => s

/-- `EmissionEngine._apply_formats` over a padron-row dict. -/
def applyFormats (datos : List (String × PValue)) : List (String × String) :=
  datos.map (fun kv => (kv.1, formatValue kv.1 kv.2))

/-- The result of `EmissionEngine.calculate_automatic_fields`. -/
structure CalcFields where
  /-- The `'pmo'` entry: `f"PMO {pmo_numero}"`. -/
  pmoField : String
  visita : String
  codigoBarras : String
  datosFormateados : List (String × String)
  deriving Repr, DecidableEq

/-- `EmissionEngine.calculate_automatic_fields`: compute the PMO
number and visita code from the accumulated store, build the barcode
payload, and format the padron values. -/
def calculateAutomaticFields (cfg : EngineConfig) (db : List Artifact)
    (cuenta : String) (datosPadron : List (String × PValue)) : CalcFields :=
  let pmoNumero := calculatePMO cfg.proyectoId db
  let visita := calculateVisita cfg.documento cuenta cfg.proyectoId db
  { pmoField := "PMO " ++ toString pmoNumero
    visita := visita
    codigoBarras := generateBarcode cfg cuenta visita
    datosFormateados := applyFormats datosPadron }

/-- `datos_completos = {**datos_padron, **campos_calculados}`.
`campos_calculados` is `{'pmo': ..., 'visita': ..., 'codigo_barras':
..., 'documento': ..., 'fecha_emision': ..., **datos_formateados}`:
the formatted padron entries spread **last**, so on a key collision (a
padron column literally named `visita`, `pmo`, ...) the formatted
padron value overwrites the computed entry; the outer merge then lets
`campos_calculados` override every raw `datos_padron` binding (all its
keys reappear formatted).  Under first-match `lookupA` the merged dict
is therefore the formatted entries followed by the five computed
entries. -/
def datosCompletos (cfg : EngineConfig) (campos : CalcFields) :
    List (String × String) :=
  campos.datosFormateados ++
  [("pmo", campos.pmoField), ("visita", campos.visita),
   ("codigo_barras", campos.codigoBarras), ("documento", cfg.documento),
   ("fecha_emision", cfg.fechaStr)]

/-- The output path built by `generate_single_pdf`:
`{output_base}/{proyecto_id}/{fecha:%Y%m%d}/{cuenta}.pdf` (relative to
the configured output base). -/
def pdfPath (cfg : EngineConfig) (cuenta : String) : String :=
  toString cfg.proyectoId ++ "/" ++ cfg.fechaStr ++ "/" ++ cuenta ++ ".pdf"

/-- Largest `fecha_generacion` in the store; a fresh insert's
`func.now()` default is modelled as one tick later. -/
def maxFechaGen (db : List Artifact) : Nat :=
  db.foldl (fun m a => max m a.fecha_generacion) 0

/-- `EmissionEngine.record_emission`: append one audit row to
`emisiones_acumuladas`.  The `pmo` column receives `self.pmo` - the
run's constructor label - while the computed `PMO n` string lives only
inside `datos_json`; `visita` and `codigo_barras` are read back out of
`datos_json`.  No update or delete statement exists in the engine. -/
def recordEmission (cfg : EngineConfig) (db : List Artifact) (cuenta : String)
    (datosJson : List (String × String)) (ruta : String) (orden : Int) :
    List Artifact :=
  db ++ [{ sesion_id := cfg.sesionId
           proyecto_id := cfg.proyectoId
           cuenta := cuenta
           orden_impresion := orden
           datosJson := datosJson
           documento := cfg.documento
           pmo := cfg.pmo
           fecha_emision := cfg.fechaKey
           visita := (lookupA "visita" datosJson).getD ""
           codigo_barras := (lookupA "codigo_barras" datosJson).getD ""
           ruta_archivo_pdf := ruta
           fecha_generacion := maxFechaGen db + 1 }]

/-- One input record as produced by `load_emission_csv` and enriched
with its padron row by `process_complete_emission`
(`registro['datos_padron']`, defaulting to the empty dict). -/
structure Registro where
  cuenta : String
  orden_impresion : Int
  datos_adicionales : List (String × String)
  linea_csv : Nat
  datos_padron : List (String × PValue) := []
  deriving Repr, DecidableEq

/-- The aggregate a batch worker returns (`resultados` in
`process_batch`). -/
structure BatchResult where
  total : Nat
  exitosos : Nat
  fallidos : Nat
  /-- `(cuenta, error message)` for every failed record. -/
  errores : List (String × String)
  archivos : List String
  deriving Repr, DecidableEq

/-- The body of `process_batch`'s per-record loop.  A record with no
padron data raises; otherwise the worker computes the automatic fields
(querying the accumulated store it was handed), renders the PDF -
rendering failures come from the oracle `renderOk`, modelling the
exceptions `generate_single_pdf` re-raises - and commits one audit
row.  Any exception is caught per record: the error is appended to the
in-memory result list and **no** audit row is written for that
record. -/
def processRecord (cfg : EngineConfig) (renderOk : String → Bool)
    (acc : BatchResult × List Artifact) (r : Registro) :
    BatchResult × List Artifact :=
  let (res, db) := acc
  if r.datos_padron.isEmpty then
    ({ res with fallidos := res.fallidos + 1,
                errores := res.errores ++
                  [(r.cuenta, "No hay datos de padrón para cuenta " ++ r.cuenta)] },
     db)
  else
    let campos := calculateAutomaticFields cfg db r.cuenta r.datos_padron
    let datos := datosCompletos cfg campos
    if renderOk r.cuenta then
      let ruta := pdfPath cfg r.cuenta
      let db' := recordEmission cfg db r.cuenta datos ruta r.orden_impresion
      ({ res with exitosos := res.exitosos + 1,
                  archivos := res.archivos ++ [ruta] },
       db')
    else
      ({ res with fallidos := res.fallidos + 1,
                  errores := res.errores ++
                    [(r.cuenta, "Error generando PDF para cuenta " ++ r.cuenta)] },
       db)

/-- `EmissionEngine.process_batch`: the function submitted to the
`ProcessPoolExecutor` workers.  It receives the batch of records and
acts on the accumulated store, threading the store through its own
commits (each worker commits each record independently). -/
def processBatch (cfg : EngineConfig) (renderOk : String → Bool)
    (db : List Artifact) (registros : List Registro) :
    BatchResult × List Artifact :=
  registros.foldl (processRecord cfg renderOk)
    ({ total := registros.length, exitosos := 0, fallidos := 0,
       errores := [], archivos := [] }, db)

/-- Fixture run configuration for concrete-input theorems below. -/
def cfgDemo : EngineConfig :=
  { proyectoId := 1, sesionId := 1, documento := "N", pmo := "PMO 1",
    fechaStr := "20240101", fechaKey := 5 }

/-- Fixture matched record for concrete-input theorems below. -/
def regDemo : Registro :=
  { cuenta := "A1", orden_impresion := 1, datos_adicionales := [], linea_csv := 1,
    datos_padron := [("cuenta", PValue.vstr "A1"), ("nombre", PValue.vstr "Juan")] }

/-! ### CSV loading and the complete run

`csv.DictReader` yields one dict per data row, keyed by the header's
field names; a row shorter than the header fills the missing cells
with `None`.  A row is therefore an association list from field name
to `Option String`.  All raised exceptions (`ValueError` from the
validations and `int()`, `KeyError`, and the `AttributeError` from
`None.strip()`, which the inner `except (ValueError, KeyError)` does
not catch but the outer `except Exception` re-raises all the same)
abort the whole load and are modelled as `Except.error`. -/

/-- One CSV data row as a `DictReader` dict. -/
structure CsvRow where
  cells : List (String × Option String)
  deriving Repr, DecidableEq

/-- An input CSV: the header's field names and the data rows. -/
structure CsvFile where
  fieldnames : List String
  rows : List CsvRow
  deriving Repr, DecidableEq

/-- The `datos_adicionales` loop of `load_emission_csv`: every cell
whose key is not a required column and whose stripped value is
nonempty is carried through; a `None` cell raises
(`value.strip()` on `None`). -/
def extraeDatos : List (String × Option String) → Except String (List (String × String))
  | [] => .ok []
  | (k, v) :: rest =>
      if k = "cuenta" ∨ k = "orden_impresion" then extraeDatos rest
      else
        match v with
        | none => .error "AttributeError: 'NoneType' object has no attribute 'strip'"
        | some s =>
            match extraeDatos rest with
            | .error e => .error e
            | .ok rest' =>
                if pyStrip s ≠ "" then .ok ((k, pyStrip s) :: rest')
                else .ok rest'

/-- Load and validate one CSV row (line `i`), against the records
accumulated so far: strip the account, parse the print order as an
`int`, reject an order already seen, and collect the extra data. -/
def loadRow (registros : List Registro) (i : Nat) (r : CsvRow) :
    Except String Registro :=
  match lookupA "cuenta" r.cells with
  | none => .error "KeyError: 'cuenta'"
  | some none => .error "AttributeError: 'NoneType' object has no attribute 'strip'"
  | some (some vc) =>
      match lookupA "orden_impresion" r.cells with
      | none => .error "KeyError: 'orden_impresion'"
      | some none => .error "TypeError: int() argument must not be NoneType"
      | some (some vo) =>
          match pyParseInt vo with
          | none => .error ("ValueError: invalid literal for int(): " ++ vo)
          | some orden =>
              if registros.any (fun q => q.orden_impresion == orden) then
                .error ("Orden de impresión duplicado: " ++ toString orden)
              else
                match extraeDatos r.cells with
                | .error e => .error e
                | .ok datos =>
                    .ok { cuenta := pyStrip vc, orden_impresion := orden,
                          datos_adicionales := datos, linea_csv := i }

/-- The parsed print order of a CSV row: the `orden_impresion` cell
when it exists, is non-`None` and parses as an `int`. -/
def ordenOf (r : CsvRow) : Option Int :=
  match lookupA "orden_impresion" r.cells with
  | some (some v) => pyParseInt v
  | _ => none

/-- The `for i, row in enumerate(reader, 1)` loop: rows are loaded in
order and any row-level exception aborts the load. -/
def loadRowsLoop : Nat → List Registro → List CsvRow → Except String (List Registro)
  | _, acc, [] => .ok acc
  | i, acc, r :: rs =>
      match loadRow acc i r with
      | .error e => .error e
      | .ok reg => loadRowsLoop (i + 1) (acc ++ [reg]) rs

/-- First-occurrence deduplication; models the `cuentas` set built
during the load (only membership in the resulting list matters
downstream, not its order). -/
def dedup (l : List String) : List String :=
  l.foldl (fun acc c => if acc.contains c then acc else acc ++ [c]) []

/-- `EmissionEngine.load_emission_csv`: require the `cuenta` and
`orden_impresion` columns, load every row, and reject an empty
result.  Returns the records and the distinct accounts. -/
def load_emission_csv (csv : CsvFile) :
    Except String (List Registro × List String) :=
  if ¬ csv.fieldnames.contains "cuenta" then
    .error "Columna requerida no encontrada: cuenta"
  else if ¬ csv.fieldnames.contains "orden_impresion" then
    .error "Columna requerida no encontrada: orden_impresion"
  else
    match loadRowsLoop 1 [] csv.rows with
    | .error e => .error e
    | .ok registros =>
        if registros.isEmpty then
          .error "El CSV está vacío o no contiene registros válidos"
        else
          .ok (registros, dedup (registros.map (·.cuenta)))

/-- One row of the project's dynamic padron table as the engine's join
returns it (typed values; the mandatory `cuenta` column is kept as an
explicit field, `data` holds the remaining columns). -/
structure PadronData where
  cuenta : String
  data : List (String × PValue)
  is_deleted : Bool
  deriving Repr, DecidableEq

/-- `EmissionEngine.match_with_padron`:
`SELECT * FROM {padron} WHERE cuenta IN (...) AND is_deleted = false`,
then split the requested accounts into found rows and a not-found
list. -/
def matchWithPadron (padron : List PadronData) (cuentas : List String) :
    List PadronData × List String :=
  if cuentas.isEmpty then ([], [])
  else
    let encontrados := padron.filter (fun p => cuentas.contains p.cuenta && !p.is_deleted)
    let cuentasEnc := encontrados.map (·.cuenta)
    (encontrados, cuentas.filter (fun c => ¬ cuentasEnc.contains c))

/-- Step 3 of `process_complete_emission`: key the found padron rows
by account (`{d['cuenta']: d for d in datos_padron}`, a later row with
the same account overwriting an earlier one) and keep exactly the CSV
records whose account is in that dict, enriched with the padron dict
(which includes the `cuenta` column itself). -/
def combineRegistros (registros : List Registro) (encontrados : List PadronData) :
    List Registro :=
  let dict := encontrados.map (fun d => (d.cuenta, d))
  registros.filterMap (fun reg =>
    match lookupLast reg.cuenta dict with
    | some d => some { reg with datos_padron := ("cuenta", PValue.vstr d.cuenta) :: d.data }
    | none => none)

/-- The run summary relevant to the claims (`resultados`). -/
structure RunResult where
  total_registros : Nat
  registros_procesados : Nat
  cuentas_no_encontradas : List String
  pdfs_generados : Nat
  errores : List (String × String)
  deriving Repr, DecidableEq

/-- `EmissionEngine.process_complete_emission`: load the CSV, match
against the padron, combine, chunk into batches of 100 and hand the
batches to the worker pool, then aggregate.  The
`ProcessPoolExecutor`/`as_completed` fan-out is modelled as a fold over
the batches in order - one linearization of the workers' independent
per-record commits; the claims proved below do not depend on the
interleaving.  Returns the outcome, the list of PDF files written, and
the final accumulated store; a load or match failure propagates before
any batch is dispatched, so no file is written and the store is
untouched. -/
def process_complete_emission (cfg : EngineConfig) (renderOk : String → Bool)
    (csv : CsvFile) (padron : List PadronData) (db : List Artifact) :
    Except String RunResult × List String × List Artifact :=
  match load_emission_csv csv with
  | .error e => (.error e, [], db)
  | .ok (registrosCsv, cuentasCsv) =>
      let (datosEnc, noEnc) := matchWithPadron padron cuentasCsv
      let combinados := combineRegistros registrosCsv datosEnc
      let batches := chunkList 100 combinados
      let step := fun (acc : (Nat × List (String × String) × List String) × List Artifact)
          (batch : List Registro) =>
        let (res, db2) := processBatch cfg renderOk acc.2 batch
        ((acc.1.1 + res.exitosos, acc.1.2.1 ++ res.errores, acc.1.2.2 ++ res.archivos), db2)
      let out := batches.foldl step ((0, [], []), db)
      (.ok { total_registros := registrosCsv.length
             registros_procesados := combinados.length
             cuentas_no_encontradas := noEnc
             pdfs_generados := out.1.1
             errores := out.1.2.1 },
       out.1.2.2, out.2)

/-! # Theorems -/

/-! ## Shared helper lemmas -/

theorem charOfNat_toNat_small (n : Nat) (h : n < 55296) : (Char.ofNat n).toNat = n := by
  rw [Char.ofNat, dif_pos (Or.inl (by exact_mod_cast h))]
  simp [Char.ofNatAux, Char.toNat, UInt32.toNat, BitVec.toNat_ofNatLt]

theorem goodIdentChar_of_shift (c : Char) (hl : 65 ≤ c.toNat) (hr : c.toNat ≤ 90) :
    goodIdentChar (Char.ofNat (c.toNat + 32)) = true := by
  simp only [goodIdentChar, charOfNat_toNat_small (c.toNat + 32) (by omega),
    Bool.or_eq_true, Bool.and_eq_true, decide_eq_true_eq]
  omega

theorem lookupA_append (k : String) (l1 l2 : List (String × α)) :
    lookupA k (l1 ++ l2) =
      match lookupA k l1 with
      | some v => some v
      | none => lookupA k l2 := by
  induction l1 with
  | nil => rfl
  | cons kv rest ih =>
      by_cases hk : kv.1 = k
      · simp [lookupA, hk]
      · simpa [lookupA, hk] using ih

theorem lookupA_applyFormats_none (k : String) (l : List (String × PValue))
    (h : hasKeyA k l = false) : lookupA k (applyFormats l) = none := by
  induction l with
  | nil => rfl
  | cons kv rest ih =>
      by_cases hk : kv.1 = k
      · exfalso
        unfold hasKeyA lookupA at h
        rw [if_pos hk] at h
        cases h
      · simp only [applyFormats, List.map_cons, lookupA]
        rw [if_neg hk]
        apply ih
        simp only [hasKeyA, lookupA] at h
        rw [if_neg hk] at h
        exact h

theorem goodIdentChar_step (c : Char) :
    goodIdentChar (pyLowerChar (keepIdentChar c)) = true := by
  by_cases hid : isAsciiIdentChar c = true
  · rw [keepIdentChar, if_pos hid, pyLowerChar]
    by_cases hup : (65 ≤ c.toNat && c.toNat ≤ 90) = true
    · rw [if_pos hup]
      simp only [Bool.and_eq_true, decide_eq_true_eq] at hup
      exact goodIdentChar_of_shift c hup.1 hup.2
    · rw [if_neg hup]
      simp only [isAsciiIdentChar, Bool.or_eq_true, Bool.and_eq_true,
        decide_eq_true_eq] at hid
      simp only [Bool.and_eq_true, decide_eq_true_eq, not_and, not_le] at hup
      simp only [goodIdentChar, Bool.or_eq_true, Bool.and_eq_true, decide_eq_true_eq]
      omega
  · rw [keepIdentChar, if_neg hid]
    decide

theorem goodIdentChar_t : goodIdentChar (pyLowerChar 't') = true := by decide

theorem goodIdentChar_c : goodIdentChar (pyLowerChar 'c') = true := by decide

theorem goodIdentChar_us : goodIdentChar (pyLowerChar '_') = true := by decide

theorem mem_lower_keep_good (l : List Char) (c : Char)
    (hc : c ∈ (l.map keepIdentChar).map pyLowerChar) : goodIdentChar c = true := by
  rcases List.mem_map.mp hc with ⟨d, hd, rfl⟩
  rcases List.mem_map.mp hd with ⟨e, _, rfl⟩
  exact goodIdentChar_step e

/-! ## C9 - identifier sanitization -/

/-- C9 counterexample: the claim says every identifier - table *or
column* name - is truncated to the 63-character limit, but
`sanitize_column_name` has no truncation step: a 64-character column
name keeps all 64 characters. -/
theorem sanitize_column_name_no_truncation_counterexample :
    (sanitize_column_name (String.mk (List.replicate 64 'a'))).length = 64 ∧
    ¬ (sanitize_column_name (String.mk (List.replicate 64 'a'))).length ≤ 63 := by
  constructor <;> decide

/-- C9 (amended): sanitized identifiers contain only `[a-z0-9_]` (in
particular no uppercase letters) and are prefixed (`t_` for table
names, `c_` for column names) when the input starts with a digit;
*table* names are additionally truncated to the 63-character
PostgreSQL limit, while *column* names are not truncated. -/
theorem sanitize_identifiers_amended (name : String) :
    (sanitize_table_name name).length ≤ 63 ∧
    (∀ c ∈ (sanitize_table_name name).toList, goodIdentChar c = true) ∧
    (∀ c ∈ (sanitize_column_name name).toList, goodIdentChar c = true) ∧
    (∀ c cs, name.toList = c :: cs → (48 ≤ c.toNat && c.toNat ≤ 57) = true →
      (sanitize_table_name name).toList.take 2 = ['t', '_'] ∧
      (sanitize_column_name name).toList.take 2 = ['c', '_']) := by
  have htl : ∀ l : List Char, (List.asString l).toList = l := fun _ => rfl
  have hlen : ∀ l : List Char, (List.asString l).length = l.length := fun _ => rfl
  refine ⟨?_, ?_, ?_, ?_⟩
  · simp only [sanitize_table_name]
    cases h : headIsDigit (name.toList.map keepIdentChar) <;>
      simp only [h, Bool.false_eq_true, if_false, if_true, hlen,
        List.length_map, List.length_take] <;> omega
  · intro c hc
    simp only [sanitize_table_name, htl] at hc
    cases h : headIsDigit (name.toList.map keepIdentChar) <;>
      simp only [h, Bool.false_eq_true, if_false, if_true] at hc
    · rcases List.mem_map.mp hc with ⟨d, hd, rfl⟩
      have hd' := List.take_subset _ _ hd
      exact mem_lower_keep_good name.toList _ (List.mem_map.mpr ⟨d, hd', rfl⟩)
    · rcases List.mem_map.mp hc with ⟨d, hd, rfl⟩
      have hd' := List.take_subset _ _ hd
      simp only [List.mem_cons] at hd'
      rcases hd' with rfl | rfl | hd2
      · exact goodIdentChar_t
      · exact goodIdentChar_us
      · exact mem_lower_keep_good name.toList _ (List.mem_map.mpr ⟨d, hd2, rfl⟩)
  · intro c hc
    simp only [sanitize_column_name, htl] at hc
    cases h : headIsDigit (name.toList.map keepIdentChar) <;>
      simp only [h, Bool.false_eq_true, if_false, if_true] at hc
    · exact mem_lower_keep_good name.toList _ hc
    · rcases List.mem_map.mp hc with ⟨d, hd, rfl⟩
      simp only [List.mem_cons] at hd
      rcases hd with rfl | rfl | hd2
      · exact goodIdentChar_c
      · exact goodIdentChar_us
      · exact mem_lower_keep_good name.toList _ (List.mem_map.mpr ⟨d, hd2, rfl⟩)
  · intro c cs hname hdig
    have hkeep : keepIdentChar c = c := by
      rw [keepIdentChar, if_pos]
      simp only [isAsciiIdentChar, Bool.or_eq_true]
      left; right
      exact hdig
    have hhead : headIsDigit (name.toList.map keepIdentChar) = true := by
      rw [hname]
      simp only [List.map_cons, headIsDigit, hkeep]
      exact hdig
    constructor
    · simp only [sanitize_table_name, hhead, if_true, htl]
      have h63 : (63 : Nat) = 61 + 2 := by norm_num
      rw [h63, List.take_succ_cons, List.take_succ_cons]
      rfl
    · simp only [sanitize_column_name, hhead, if_true, htl]
      rfl

/-- Witness for `sanitize_identifiers_amended` at the concrete name
`"9Tabla Grande"`. -/
theorem sanitize_identifiers_amended_witness :
    (sanitize_table_name "9Tabla Grande").toList.take 2 = ['t', '_'] ∧
    (sanitize_column_name "9Tabla Grande").toList.take 2 = ['c', '_'] ∧
    (sanitize_table_name "9Tabla Grande").length ≤ 63 := by
  have h := (sanitize_identifiers_amended "9Tabla Grande").2.2.2 '9'
    "Tabla Grande".toList (by decide) (by decide)
  exact ⟨h.1, h.2, (sanitize_identifiers_amended "9Tabla Grande").1⟩

/-! ## C6 - text-fit algorithm -/

theorem shrinkLoop_step_true (sw : String → Nat → Int) (t : String) (w h : Int)
    (n : Nat) (ls : List String)
    (hc : 8 ≤ n ∧ (ls.length : Int) * lineHeight n > h) :
    shrinkLoop sw t w h n ls =
      shrinkLoop sw t w h (n - 1) (wrapText sw t (n - 1) w) := by
  obtain ⟨m, rfl⟩ : ∃ m, n = m + 1 := ⟨n - 1, by omega⟩
  rw [shrinkLoop, if_pos hc]
  simp

theorem shrinkLoop_step_false (sw : String → Nat → Int) (t : String) (w h : Int)
    (n : Nat) (ls : List String)
    (hc : ¬ (8 ≤ n ∧ (ls.length : Int) * lineHeight n > h)) :
    shrinkLoop sw t w h n ls = (n, ls) := by
  cases n with
  | zero => rw [shrinkLoop]
  | succ m => rw [shrinkLoop, if_neg hc]

theorem shrinkLoop_le_start (sw : String → Nat → Int) (t : String) (w h : Int) :
    ∀ n ls, (shrinkLoop sw t w h n ls).1 ≤ n := by
  intro n
  induction n using Nat.strong_induction_on with
  | _ n ih =>
    intro ls
    by_cases hc : 8 ≤ n ∧ (ls.length : Int) * lineHeight n > h
    · rw [shrinkLoop_step_true sw t w h n ls hc]
      have := ih (n - 1) (by omega) (wrapText sw t (n - 1) w)
      omega
    · rw [shrinkLoop_step_false sw t w h n ls hc]

theorem shrinkLoop_exit_fits (sw : String → Nat → Int) (t : String) (w h : Int) :
    ∀ n ls, 8 ≤ (shrinkLoop sw t w h n ls).1 →
      ((shrinkLoop sw t w h n ls).2.length : Int) *
        lineHeight (shrinkLoop sw t w h n ls).1 ≤ h := by
  intro n
  induction n using Nat.strong_induction_on with
  | _ n ih =>
    intro ls
    by_cases hc : 8 ≤ n ∧ (ls.length : Int) * lineHeight n > h
    · rw [shrinkLoop_step_true sw t w h n ls hc]
      exact ih (n - 1) (by omega) (wrapText sw t (n - 1) w)
    · rw [shrinkLoop_step_false sw t w h n ls hc]
      intro h8
      push_neg at hc
      simp only at h8 ⊢
      exact hc h8

theorem shrinkLoop_strict (sw : String → Nat → Int) (t : String) (w h : Int)
    (n : Nat) (ls : List String)
    (hov : h < (ls.length : Int) * lineHeight n)
    (h8 : 8 ≤ (shrinkLoop sw t w h n ls).1) :
    (shrinkLoop sw t w h n ls).1 < n := by
  by_cases hn : 8 ≤ n
  · rw [shrinkLoop_step_true sw t w h n ls ⟨hn, hov⟩] at h8 ⊢
    have := shrinkLoop_le_start sw t w h (n - 1) (wrapText sw t (n - 1) w)
    omega
  · rw [shrinkLoop_step_false sw t w h n ls (fun hcon => hn hcon.1)] at h8
    omega

/-- C6 (amended): when a value's single-line width exceeds the box
width, `_insert_text` wraps it at the declared size, shrinks the size
one point at a time (never drawing below the 8pt floor), or falls back
to truncating the original text to 30 characters plus `"..."`; the
wrapped and shrunk outcomes never exceed the declared box height (in
the code's own metric `lines * size * 1.2`), but the truncation
fallback is drawn as a single line at the *original declared* font
size, which can exceed a box whose height is smaller than that size -
and a single line is never drawn un-truncated in this regime. -/
theorem insertText_fit_amended (sw : String → Nat → Int) (t : String) (w h : Int)
    (fs : Nat) (hwide : w < sw t fs) :
    (∀ ls n, insertText sw t w h fs = .wrapped ls n →
        n = fs ∧ (ls.length : Int) * lineHeight n ≤ h) ∧
    (∀ ls n, insertText sw t w h fs = .shrunk ls n →
        8 ≤ n ∧ n < fs ∧ (ls.length : Int) * lineHeight n ≤ h) ∧
    (∀ s n, insertText sw t w h fs = .truncated s n →
        s = (t.toList.take 30).asString ++ "..." ∧ n = fs) ∧
    (∀ s n, insertText sw t w h fs ≠ .singleLine s n) := by
  have hnotle : ¬ sw t fs ≤ w := not_le.mpr hwide
  by_cases hfit : ((wrapText sw t fs w).length : Int) * lineHeight fs ≤ h
  · refine ⟨?_, ?_, ?_, ?_⟩ <;> intro a b heq <;>
      simp only [insertText, if_neg hnotle, if_pos hfit] at heq <;>
      first
      | (cases heq; exact ⟨rfl, hfit⟩)
      | cases heq
  · by_cases h8 : 8 ≤ (shrinkLoop sw t w h fs (wrapText sw t fs w)).1
    · refine ⟨?_, ?_, ?_, ?_⟩ <;> intro a b heq <;>
        simp only [insertText, if_neg hnotle, if_neg hfit, if_pos h8] at heq <;>
        first
        | (cases heq;
           exact ⟨h8, shrinkLoop_strict sw t w h fs _ (not_le.mp hfit) h8,
             shrinkLoop_exit_fits sw t w h fs _ h8⟩)
        | cases heq
    · refine ⟨?_, ?_, ?_, ?_⟩ <;> intro a b heq <;>
        simp only [insertText, if_neg hnotle, if_neg hfit, if_neg h8] at heq <;>
        first
        | (cases heq; exact ⟨rfl, rfl⟩)
        | cases heq

/-- Witness for `insertText_fit_amended`: with the width measure
`|s| * size` points, the text `"ab cd"` in a 30x30 point box at 11pt
wraps into two lines that fit the box height. -/
theorem insertText_fit_amended_witness :
    (11 : ℕ) = 11 ∧ (([("ab" : String), "cd"].length : Int)) * lineHeight 11 ≤ 150 :=
  (insertText_fit_amended (fun s n => (s.length * n * 5 : Int)) "ab cd" 150 150 11
    (by decide)).1 ["ab", "cd"] 11 (by decide)

/-- C6 counterexample: the claim that "after the algorithm completes,
the drawn text never exceeds the declared box height" fails in the
truncation fallback.  With the width measure `|s| * size` points, the
text `"aaaa bbbb cccc"` in a 10x5 point box declared at 11pt reaches
the truncation branch, whose single line is drawn at the original 11pt
size - which exceeds the 5pt box height (50 and 25 in fifths of a
point). -/
theorem insertText_height_overflow_counterexample :
    insertText (fun s n => (s.length * n * 5 : Int)) "aaaa bbbb cccc" 50 25 11 =
      .truncated "aaaa bbbb cccc..." 11 ∧
    ¬ (insertText (fun s n => (s.length * n * 5 : Int))
        "aaaa bbbb cccc" 50 25 11).drawnHeight ≤ 25 := by
  constructor <;> decide

/-! ## C4 - PMO sequence -/

/-- C4 (code bug): `_calculate_pmo` can never see a prior label.  Its
query orders by `created_at`, a column `emisiones_acumuladas` does not
have, so the lookup raises for every store state and the `except`
branch returns 1 unconditionally - the computed `pmo_sequence` is 1
even for a project whose most recent artifact is labelled `"PMO 7"`,
where the claim (and `calculatePMOSpec`, which follows the spec's
words) requires 8. -/
theorem calculatePMO_undefined_column_bug :
    (∀ pid db, calculatePMO pid db = 1) ∧
    calculatePMO 1 [mkArt 1 "C1" "N" "PMO 7" "N1" 1 1] = 1 ∧
    calculatePMOSpec 1 [mkArt 1 "C1" "N" "PMO 7" "N1" 1 1] = 8 :=
  ⟨fun _ _ => rfl, by decide, by decide⟩

/-! ## C3 - visita sequence -/

/-- C3 counterexample: for the two-character document type `"CI"`
(one of the four types the engine documents), an account whose most
recent artifact is `visita = "CI1"` with the same document type gets
`"CI1"` again - not `"CI2"` - because the source parses
`int(last_visita[1:])`, i.e. `int("I1")`, which raises and falls back
to 1.  The counter therefore does not strictly increment. -/
theorem calculateVisita_ci_counterexample :
    calculateVisita "CI" "A1" 1 [mkArt 1 "A1" "CI" "PMO 1" "CI1" 1 1] = "CI1" ∧
    calculateVisita "CI" "A1" 1 [mkArt 1 "A1" "CI" "PMO 1" "CI1" 1 1] ≠ "CI2" := by
  constructor <;> decide

/-- C3 (amended): with no prior artifact for the account the visita is
`documento ++ "1"`; when the most recent artifact has a different
document type, or its visita's tail after the *first character* does
not parse as an integer (as happens for every multi-character type
such as `"CI"`), the counter restarts at `documento ++ "1"`; the
increment to `n + 1` happens exactly when the most recent artifact has
the same type, its visita starts with the type, and the tail after the
first character parses as `n`. -/
theorem calculateVisita_amended (d c : String) (pid : Nat) (db : List Artifact) :
    ((∀ a ∈ db, ¬ (a.proyecto_id = pid ∧ a.cuenta = c)) →
        calculateVisita d c pid db = d ++ "1") ∧
    (∀ a, visitaQuery pid c db = some a → a.documento ≠ d →
        calculateVisita d c pid db = d ++ "1") ∧
    (∀ a n, visitaQuery pid c db = some a → a.documento = d →
        pyStartsWith d a.visita = true →
        pyParseInt (pyDropChars 1 a.visita) = some n →
        calculateVisita d c pid db = d ++ toString (n + 1)) ∧
    (∀ a, visitaQuery pid c db = some a → a.documento = d →
        pyStartsWith d a.visita = true →
        pyParseInt (pyDropChars 1 a.visita) = none →
        calculateVisita d c pid db = d ++ "1") := by
  refine ⟨?_, ?_, ?_, ?_⟩
  · intro hnone
    have hq : visitaQuery pid c db = none := by
      unfold visitaQuery latestBy
      have hfil : db.filter (fun a => a.proyecto_id == pid && a.cuenta == c) = [] := by
        rw [List.filter_eq_nil_iff]
        intro a ha
        simp only [Bool.and_eq_true, beq_iff_eq, not_and]
        intro h1 h2
        exact hnone a ha ⟨h1, h2⟩
      rw [hfil]
      rfl
    simp only [calculateVisita, hq]
  · intro a hq hne
    simp only [calculateVisita, hq]
    rw [if_neg hne]
  · intro a n hq hdoc hpre hparse
    simp only [calculateVisita, hq]
    rw [if_pos hdoc, if_pos hpre, hparse]
  · intro a hq hdoc hpre hparse
    simp only [calculateVisita, hq]
    rw [if_pos hdoc, if_pos hpre, hparse]

/-- Witness for `calculateVisita_amended`: a prior `"N7"` artifact of
the same single-letter type `"N"` yields `"N8"`. -/
theorem calculateVisita_amended_witness :
    calculateVisita "N" "A1" 1 [mkArt 1 "A1" "N" "PMO 1" "N7" 1 1] =
      "N" ++ toString (7 + 1) :=
  (calculateVisita_amended "N" "A1" 1 [mkArt 1 "A1" "N" "PMO 1" "N7" 1 1]).2.2.1
    (mkArt 1 "A1" "N" "PMO 1" "N7" 1 1) 7 (by decide) (by decide)
    (by decide) (by decide)

/-! ## C1 - audit rows per attempt -/

theorem processRecord_step (cfg : EngineConfig) (ro : String → Bool)
    (res : BatchResult) (db : List Artifact) (r : Registro) :
    ∃ e : List Artifact,
      (processRecord cfg ro (res, db) r).2 = db ++ e ∧
      (processRecord cfg ro (res, db) r).1.exitosos = res.exitosos + e.length ∧
      (processRecord cfg ro (res, db) r).1.fallidos + e.length = res.fallidos + 1 ∧
      (processRecord cfg ro (res, db) r).1.total = res.total := by
  by_cases h1 : r.datos_padron.isEmpty
  · refine ⟨[], ?_, ?_, ?_, ?_⟩ <;> simp [processRecord, h1]
  · by_cases h2 : ro r.cuenta
    · simp only [processRecord, h1, h2, Bool.false_eq_true, if_false, if_true,
        recordEmission]
      refine ⟨_, rfl, ?_, ?_, ?_⟩ <;> simp
    · refine ⟨[], ?_, ?_, ?_, ?_⟩ <;> simp [processRecord, h1, h2]

theorem processRecord_foldl_spec (cfg : EngineConfig) (ro : String → Bool) :
    ∀ (regs : List Registro) (res : BatchResult) (db : List Artifact),
      ∃ new : List Artifact,
        (regs.foldl (processRecord cfg ro) (res, db)).2 = db ++ new ∧
        new.length + res.exitosos =
          (regs.foldl (processRecord cfg ro) (res, db)).1.exitosos ∧
        (regs.foldl (processRecord cfg ro) (res, db)).1.exitosos +
            (regs.foldl (processRecord cfg ro) (res, db)).1.fallidos =
          res.exitosos + res.fallidos + regs.length ∧
        (regs.foldl (processRecord cfg ro) (res, db)).1.total = res.total := by
  intro regs
  induction regs with
  | nil => exact fun res db => ⟨[], by simp, by simp, by simp, rfl⟩
  | cons r rs ih =>
      intro res db
      obtain ⟨e, he, hex, hfa, hto⟩ := processRecord_step cfg ro res db r
      obtain ⟨new, h1, h2, h3, h4⟩ :=
        ih (processRecord cfg ro (res, db) r).1 (processRecord cfg ro (res, db) r).2
      simp only [Prod.mk.eta] at h1 h2 h3 h4
      refine ⟨e ++ new, ?_, ?_, ?_, ?_⟩
      · rw [List.foldl_cons, h1, he, List.append_assoc]
      · rw [List.foldl_cons]
        simp only [List.length_append]
        omega
      · rw [List.foldl_cons]
        simp only [List.length_cons]
        omega
      · rw [List.foldl_cons]
        omega

/-- C1 (amended): during batch processing the audit store is
append-only (the rows present before the batch are preserved, new rows
are appended at the end), and exactly one audit row is created per
*successful* record - a failed attempt contributes to `fallidos` and
the in-memory error list but writes **no** audit row, so the number of
appended rows equals `exitosos`, with `exitosos + fallidos` covering
every attempted record. -/
theorem processBatch_artifacts_amended (cfg : EngineConfig) (ro : String → Bool)
    (db : List Artifact) (regs : List Registro) :
    ∃ new : List Artifact,
      (processBatch cfg ro db regs).2 = db ++ new ∧
      new.length = (processBatch cfg ro db regs).1.exitosos ∧
      (processBatch cfg ro db regs).1.exitosos +
        (processBatch cfg ro db regs).1.fallidos = regs.length ∧
      (processBatch cfg ro db regs).1.total = regs.length := by
  obtain ⟨new, h1, h2, h3, h4⟩ := processRecord_foldl_spec cfg ro regs
    { total := regs.length, exitosos := 0, fallidos := 0, errores := [], archivos := [] }
    db
  exact ⟨new, h1, by simpa using h2, by simpa using h3, h4⟩

/-- C1 counterexample: one attempted matched record whose render
fails produces **no** audit artifact row at all - not a row with a
non-null error as the claim states: the attempt count is 1, the
failure is only in the in-memory error list, and the store stays
empty. -/
theorem processBatch_failure_no_artifact_counterexample :
    (processBatch cfgDemo (fun _ => false) [] [regDemo]).1.total = 1 ∧
    (processBatch cfgDemo (fun _ => false) [] [regDemo]).1.fallidos = 1 ∧
    (processBatch cfgDemo (fun _ => false) [] [regDemo]).2 = [] := by
  refine ⟨?_, ?_, ?_⟩ <;> decide

/-! ## C2 - who resolves the sequence fields -/

theorem lookupA_datosCompletos_computed (cfg : EngineConfig) (campos : CalcFields)
    (dp : List (String × PValue))
    (hdf : campos.datosFormateados = applyFormats dp)
    (hv : hasKeyA "visita" dp = false)
    (hpm : hasKeyA "pmo" dp = false)
    (hcb : hasKeyA "codigo_barras" dp = false) :
    lookupA "visita" (datosCompletos cfg campos) = some campos.visita ∧
    lookupA "pmo" (datosCompletos cfg campos) = some campos.pmoField ∧
    lookupA "codigo_barras" (datosCompletos cfg campos) =
      some campos.codigoBarras := by
  unfold datosCompletos
  refine ⟨?_, ?_, ?_⟩
  · rw [hdf, lookupA_append, lookupA_applyFormats_none "visita" dp hv]
    rfl
  · rw [hdf, lookupA_append, lookupA_applyFormats_none "pmo" dp hpm]
    rfl
  · rw [hdf, lookupA_append, lookupA_applyFormats_none "codigo_barras" dp hcb]
    rfl

/-- C2 (amended): the records handed to the worker pool do not carry
resolved sequence fields; `process_batch`, executed by the workers,
computes them itself from the accumulated store it is handed at
dispatch time: a successful single-record batch whose padron row does
not itself declare a column named `visita`, `pmo` or `codigo_barras`
(those names are produced by the engine; a padron column with one of
them would shadow the computed entry in the `datos_json` merge)
appends an audit row whose `visita`, `datos_json['pmo']` and barcode
are exactly the values of the store lookups evaluated *inside* the
batch call. -/
theorem processBatch_worker_computes_sequences (cfg : EngineConfig)
    (ro : String → Bool) (db : List Artifact) (r : Registro)
    (hp : r.datos_padron.isEmpty = false) (hro : ro r.cuenta = true)
    (hv : hasKeyA "visita" r.datos_padron = false)
    (hpm : hasKeyA "pmo" r.datos_padron = false)
    (hcb : hasKeyA "codigo_barras" r.datos_padron = false) :
    ∃ a : Artifact,
      (processBatch cfg ro db [r]).2 = db ++ [a] ∧
      a.visita = calculateVisita cfg.documento r.cuenta cfg.proyectoId db ∧
      lookupA "pmo" a.datosJson =
        some ("PMO " ++ toString (calculatePMO cfg.proyectoId db)) ∧
      a.codigo_barras =
        generateBarcode cfg r.cuenta
          (calculateVisita cfg.documento r.cuenta cfg.proyectoId db) := by
  obtain ⟨h1, h2, h3⟩ := lookupA_datosCompletos_computed cfg
    (calculateAutomaticFields cfg db r.cuenta r.datos_padron) r.datos_padron
    rfl hv hpm hcb
  simp only [processBatch, List.foldl_cons, List.foldl_nil, processRecord, hp, hro,
    Bool.false_eq_true, if_false, if_true]
  refine ⟨_, rfl, ?_, ?_, ?_⟩
  · show (lookupA "visita"
        (datosCompletos cfg (calculateAutomaticFields cfg db r.cuenta r.datos_padron))).getD ""
      = calculateVisita cfg.documento r.cuenta cfg.proyectoId db
    rw [h1]
    rfl
  · show lookupA "pmo"
        (datosCompletos cfg (calculateAutomaticFields cfg db r.cuenta r.datos_padron))
      = some ("PMO " ++ toString (calculatePMO cfg.proyectoId db))
    rw [h2]
    rfl
  · show (lookupA "codigo_barras"
        (datosCompletos cfg (calculateAutomaticFields cfg db r.cuenta r.datos_padron))).getD ""
      = generateBarcode cfg r.cuenta
          (calculateVisita cfg.documento r.cuenta cfg.proyectoId db)
    rw [h3]
    rfl

/-- Witness for `processBatch_worker_computes_sequences` at the
demo configuration (whose padron row has only `cuenta` and `nombre`
columns), an always-succeeding renderer and an empty store. -/
theorem processBatch_worker_computes_sequences_witness :
    ∃ a : Artifact,
      (processBatch cfgDemo (fun _ => true) [] [regDemo]).2 = [] ++ [a] ∧
      a.visita = calculateVisita cfgDemo.documento regDemo.cuenta cfgDemo.proyectoId [] ∧
      lookupA "pmo" a.datosJson =
        some ("PMO " ++ toString (calculatePMO cfgDemo.proyectoId [])) ∧
      a.codigo_barras =
        generateBarcode cfgDemo regDemo.cuenta
          (calculateVisita cfgDemo.documento regDemo.cuenta cfgDemo.proyectoId []) :=
  processBatch_worker_computes_sequences cfgDemo (fun _ => true) [] regDemo
    (by decide) (by decide) (by decide) (by decide) (by decide)

/-- C2 counterexample: `process_batch` - the function submitted to the
`ProcessPoolExecutor` - is **not** independent of the audit store's
sequence state: handing the same one-record batch an empty store
records `visita = "N1"`, while handing it a store holding a prior
`"N1"` artifact for the same account records `visita = "N2"`.  The
worker therefore queries the sequence state itself, contradicting
"workers act only on already-resolved data". -/
theorem processBatch_store_dependence_counterexample :
    ((processBatch cfgDemo (fun _ => true) [] [regDemo]).2.getLast?).map
        (fun a => a.visita) = some "N1" ∧
    ((processBatch cfgDemo (fun _ => true) [mkArt 1 "A1" "N" "PMO 1" "N1" 1 1]
        [regDemo]).2.getLast?).map (fun a => a.visita) = some "N2" := by
  refine ⟨?_, ?_⟩ <;> decide

/-! ## C7 / C8 - padron load -/

theorem lookupA_overrideA_hasKey (k : String) (base upd : List (String × String))
    (h : hasKeyA k upd = true) :
    lookupA k (overrideA base upd) = lookupA k upd := by
  unfold overrideA
  rw [lookupA_append]
  unfold hasKeyA at h
  cases hl : lookupA k upd with
  | none => rw [hl] at h; cases h
  | some v => rfl

theorem padronStep_presence_mono (now : Nat) (st : PadronState)
    (rdict : List (String × String)) (c : String)
    (hpres : ∃ row ∈ st.pending, row.is_deleted = false ∧ row.cuentaCol = some c) :
    ∃ row ∈ (padronStep now true st rdict).pending,
      row.is_deleted = false ∧ row.cuentaCol = some c := by
  obtain ⟨row, hmem, hdel, hcol⟩ := hpres
  cases hl : lookupA "cuenta" rdict with
  | none =>
      simp only [padronStep, hl]
      exact ⟨row, List.mem_append_left _ hmem, hdel, hcol⟩
  | some c' =>
      simp only [padronStep, hl]
      by_cases hex : st.pending.any
          (fun r => !r.is_deleted && r.cuentaCol = some c') = true
      · rw [if_pos hex]
        by_cases hm : c = c'
        · subst hm
          refine ⟨_, List.mem_map_of_mem _ hmem, ?_⟩
          rw [if_pos (by simp [hdel, hcol])]
          refine ⟨hdel, ?_⟩
          show lookupA "cuenta" (overrideA row.data rdict) = some c
          rw [lookupA_overrideA_hasKey _ _ _ (by simp [hasKeyA, hl]), hl]
        · refine ⟨_, List.mem_map_of_mem _ hmem, ?_⟩
          rw [if_neg (by simp [hdel, hcol]; exact hm)]
          exact ⟨hdel, hcol⟩
      · rw [if_neg hex]
        exact ⟨row, List.mem_append_left _ hmem, hdel, hcol⟩

theorem padronStep_ensures_presence (now : Nat) (st : PadronState)
    (rdict : List (String × String)) (c : String)
    (hl : lookupA "cuenta" rdict = some c) :
    ∃ row ∈ (padronStep now true st rdict).pending,
      row.is_deleted = false ∧ row.cuentaCol = some c ∧ row.updated_at = now := by
  simp only [padronStep, hl]
  by_cases hex : st.pending.any
      (fun r => !r.is_deleted && r.cuentaCol = some c) = true
  · rw [if_pos hex]
    obtain ⟨row, hmem, hcond⟩ := List.any_eq_true.mp hex
    simp only [Bool.and_eq_true, Bool.not_eq_true', decide_eq_true_eq] at hcond
    refine ⟨_, List.mem_map_of_mem _ hmem, ?_⟩
    rw [if_pos (by simp [hcond.1, hcond.2])]
    refine ⟨hcond.1, ?_, rfl⟩
    show lookupA "cuenta" (overrideA row.data rdict) = some c
    rw [lookupA_overrideA_hasKey _ _ _ (by simp [hasKeyA, hl]), hl]
  · rw [if_neg hex]
    refine ⟨_, List.mem_append_right _ (List.mem_singleton.mpr rfl), ?_⟩
    exact ⟨rfl, by simpa [PRow.cuentaCol] using hl, rfl⟩

theorem padronStep_length_of_present (now : Nat) (st : PadronState)
    (rdict : List (String × String)) (c : String)
    (hl : lookupA "cuenta" rdict = some c)
    (hpres : ∃ row ∈ st.pending, row.is_deleted = false ∧ row.cuentaCol = some c) :
    (padronStep now true st rdict).pending.length = st.pending.length := by
  obtain ⟨row, hmem, hdel, hcol⟩ := hpres
  have hex : st.pending.any (fun r => !r.is_deleted && r.cuentaCol = some c) = true :=
    List.any_eq_true.mpr ⟨row, hmem, by simp [hdel, hcol]⟩
  simp only [padronStep, hl]
  rw [if_pos hex]
  exact List.length_map _ _

theorem padronStep_refresh (now : Nat) (st : PadronState)
    (rdict : List (String × String)) (c : String) (S : List String)
    (hl : lookupA "cuenta" rdict = some c)
    (hQ : ∀ row ∈ st.pending, row.is_deleted = false →
      (∃ c' ∈ S, row.cuentaCol = some c') → row.updated_at = now) :
    ∀ row ∈ (padronStep now true st rdict).pending, row.is_deleted = false →
      (∃ c' ∈ c :: S, row.cuentaCol = some c') → row.updated_at = now := by
  simp only [padronStep, hl]
  by_cases hex : st.pending.any
      (fun r => !r.is_deleted && r.cuentaCol = some c) = true
  · rw [if_pos hex]
    intro row hmem hdel hc'
    obtain ⟨row0, hmem0, hrow⟩ := List.mem_map.mp hmem
    by_cases hcond : (!row0.is_deleted && row0.cuentaCol = some c) = true
    · rw [if_pos hcond] at hrow
      rw [← hrow]
    · rw [if_neg hcond] at hrow
      subst hrow
      obtain ⟨c', hc'S, hcol⟩ := hc'
      rcases List.mem_cons.mp hc'S with rfl | hS
      · exact absurd (by simp [hdel, hcol]) hcond
      · exact hQ row0 hmem0 hdel ⟨c', hS, hcol⟩
  · rw [if_neg hex]
    intro row hmem hdel hc'
    rcases List.mem_append.mp hmem with hold | hnew
    · obtain ⟨c', hc'S, hcol⟩ := hc'
      rcases List.mem_cons.mp hc'S with rfl | hS
      · exact absurd (List.any_eq_true.mpr ⟨row, hold, by simp [hdel, hcol]⟩) hex
      · exact hQ row hold hdel ⟨c', hS, hcol⟩
    · rw [List.mem_singleton.mp hnew]

theorem padronFold_presence_mono (now : Nat) (ds : List (List (String × String))) :
    ∀ (st : PadronState) (c : String),
      (∃ row ∈ st.pending, row.is_deleted = false ∧ row.cuentaCol = some c) →
      ∃ row ∈ (ds.foldl (padronStep now true) st).pending,
        row.is_deleted = false ∧ row.cuentaCol = some c := by
  induction ds with
  | nil => exact fun st c h => h
  | cons r rs ih => exact fun st c h => ih _ c (padronStep_presence_mono now st r c h)

theorem padronFold_presence (now : Nat) (ds : List (List (String × String))) :
    ∀ st, ∀ r ∈ ds, ∀ c, lookupA "cuenta" r = some c →
      ∃ row ∈ (ds.foldl (padronStep now true) st).pending,
        row.is_deleted = false ∧ row.cuentaCol = some c := by
  induction ds with
  | nil => intro st r hr; cases hr
  | cons d rest ih =>
      intro st r hr c hc
      rcases List.mem_cons.mp hr with rfl | hr'
      · obtain ⟨row, hm, h2, h3, _⟩ := padronStep_ensures_presence now st r c hc
        exact padronFold_presence_mono now rest _ c ⟨row, hm, h2, h3⟩
      · exact ih _ r hr' c hc

theorem padronFold_length (now : Nat) (ds : List (List (String × String))) :
    ∀ st,
      (∀ r ∈ ds, ∀ c, lookupA "cuenta" r = some c →
        ∃ row ∈ st.pending, row.is_deleted = false ∧ row.cuentaCol = some c) →
      (∀ r ∈ ds, (lookupA "cuenta" r).isSome = true) →
      (ds.foldl (padronStep now true) st).pending.length = st.pending.length := by
  induction ds with
  | nil => intro st _ _; rfl
  | cons d rest ih =>
      intro st hpres hk
      obtain ⟨c, hc⟩ := Option.isSome_iff_exists.mp (hk d (by simp))
      rw [List.foldl_cons]
      rw [ih (padronStep now true st d)
        (fun r hr c' hc' =>
          padronStep_presence_mono now st d c'
            (hpres r (List.mem_cons_of_mem _ hr) c' hc'))
        (fun r hr => hk r (List.mem_cons_of_mem _ hr))]
      exact padronStep_length_of_present now st d c hc (hpres d (by simp) c hc)

theorem padronFold_refresh (now : Nat) (ds : List (List (String × String))) :
    ∀ (st : PadronState) (S : List String),
      (∀ r ∈ ds, (lookupA "cuenta" r).isSome = true) →
      (∀ row ∈ st.pending, row.is_deleted = false →
        (∃ c' ∈ S, row.cuentaCol = some c') → row.updated_at = now) →
      ∀ row ∈ (ds.foldl (padronStep now true) st).pending, row.is_deleted = false →
        (∃ c' ∈ S ++ ds.filterMap (lookupA "cuenta"), row.cuentaCol = some c') →
        row.updated_at = now := by
  induction ds with
  | nil =>
      intro st S _ hQ row hm hd hex
      exact hQ row hm hd (by simpa using hex)
  | cons d rest ih =>
      intro st S hk hQ
      obtain ⟨c, hc⟩ := Option.isSome_iff_exists.mp (hk d (by simp))
      have hQ' := padronStep_refresh now st d c S hc hQ
      have hrec := ih (padronStep now true st d) (c :: S)
        (fun r hr => hk r (List.mem_cons_of_mem _ hr)) hQ'
      intro row hm hdel hex
      refine hrec row (by simpa [List.foldl_cons] using hm) hdel ?_
      obtain ⟨c', hc'mem, hcol⟩ := hex
      refine ⟨c', ?_, hcol⟩
      simp only [List.filterMap_cons, hc, List.mem_append, List.mem_cons] at hc'mem ⊢
      tauto

theorem padronLoop_no_fail (now : Nat) (merge : Bool) :
    ∀ (ds : List (List (String × String))) (i : Nat) (st : PadronState),
      padronLoop now merge (fun _ => false) i st ds =
        .ok (ds.foldl (padronStep now merge) st) := by
  intro ds
  induction ds with
  | nil => intro i st; rfl
  | cons d rest ih =>
      intro i st
      simp only [padronLoop, Bool.false_eq_true, if_false, List.foldl_cons]
      exact ih _ _

/-- C7: loading the same padron rows (each carrying a `cuenta` value)
twice with `merge=true` leaves the row count unchanged after the
second load - every account present is updated in place rather than
inserted again - and every non-deleted row holding one of the loaded
accounts has its `updated_at` refreshed to the second load's
timestamp. -/
theorem insert_padron_data_merge_idempotent (now1 now2 : Nat) (table : List PRow)
    (data : List (List (String × String)))
    (hk : ∀ r ∈ data, hasKeyA "cuenta" (sanitizeKeys r) = true) :
    ((insert_padron_data now2 (fun _ => false)
        (insert_padron_data now1 (fun _ => false) table data true).2 data true).2.length =
      (insert_padron_data now1 (fun _ => false) table data true).2.length) ∧
    (∀ r ∈ data, ∀ c, lookupA "cuenta" (sanitizeKeys r) = some c →
      ∀ row ∈ (insert_padron_data now2 (fun _ => false)
          (insert_padron_data now1 (fun _ => false) table data true).2 data true).2,
        row.is_deleted = false → row.cuentaCol = some c → row.updated_at = now2) := by
  cases data with
  | nil => exact ⟨rfl, fun r hr => absurd hr (List.not_mem_nil r)⟩
  | cons d rest =>
      have hk' : ∀ r ∈ (d :: rest).map sanitizeKeys, (lookupA "cuenta" r).isSome = true := by
        intro r hr
        obtain ⟨r0, hr0, rfl⟩ := List.mem_map.mp hr
        exact hk r0 hr0
      simp only [insert_padron_data, padronLoop_no_fail]
      constructor
      · exact padronFold_length now2 ((d :: rest).map sanitizeKeys) _
          (fun r hr c hc => padronFold_presence now1 ((d :: rest).map sanitizeKeys) _ r hr c hc)
          hk'
      · intro r hr c hc row hm hdel hcol
        refine padronFold_refresh now2 ((d :: rest).map sanitizeKeys) _ [] hk'
          (fun row0 _ _ hex => absurd hex (by simp)) row hm hdel ?_
        exact ⟨c, by
          simp only [List.nil_append]
          exact List.mem_filterMap.mpr ⟨sanitizeKeys r, List.mem_map_of_mem _ hr, hc⟩,
          hcol⟩

/-- Witness for `insert_padron_data_merge_idempotent` on one concrete
row loaded twice into an empty table. -/
theorem insert_padron_data_merge_idempotent_witness :
    (insert_padron_data 2 (fun _ => false)
        (insert_padron_data 1 (fun _ => false) []
          [[("cuenta", "A1"), ("nombre", "Juan")]] true).2
        [[("cuenta", "A1"), ("nombre", "Juan")]] true).2.length =
      (insert_padron_data 1 (fun _ => false) []
        [[("cuenta", "A1"), ("nombre", "Juan")]] true).2.length :=
  (insert_padron_data_merge_idempotent 1 2 []
    [[("cuenta", "A1"), ("nombre", "Juan")]]
    (fun r hr => by
      rcases List.mem_singleton.mp hr with rfl
      decide)).1

theorem padronLoop_first_fail (now : Nat) (merge : Bool) (failAt : Nat → Bool) :
    ∀ (ds : List (List (String × String))) (start : Nat) (st : PadronState) (i : Nat),
      start ≤ i → i < start + ds.length → failAt i = true →
      (∀ j, start ≤ j → j < i → failAt j = false) →
      padronLoop now merge failAt start st ds = .error "SQLAlchemyError" := by
  intro ds
  induction ds with
  | nil => intro start st i h1 h2 _ _; simp at h2; omega
  | cons d rest ih =>
      intro start st i h1 h2 hf hprev
      by_cases hs : failAt start = true
      · simp only [padronLoop, hs, if_true]
      · have hlt : start < i := by
          rcases Nat.lt_or_ge start i with h | h
          · exact h
          · have he : i = start := by omega
            rw [he] at hf
            exact absurd hf hs
        simp only [padronLoop, hs, Bool.false_eq_true, if_false]
        exact ih (start + 1) _ i (by omega) (by simp at h2 ⊢; omega) hf
          (fun j hj1 hj2 => hprev j (by omega) hj2)

/-- C8 (amended): any row-level insert/update failure aborts the whole
load with a raised exception that reports **no** counts, and - because
the single `conn.commit()` runs only after the loop - the connection's
rollback discards every row already applied: the committed table is
exactly the pre-load table, i.e. the load *is* transactional across
rows. -/
theorem insert_padron_data_abort_amended (now : Nat) (failAt : Nat → Bool)
    (table : List PRow) (data : List (List (String × String))) (merge : Bool)
    (i : Nat) (hi : i < data.length) (hf : failAt i = true)
    (hfirst : ∀ j, j < i → failAt j = false) :
    (insert_padron_data now failAt table data merge).1 = .error "SQLAlchemyError" ∧
    (insert_padron_data now failAt table data merge).2 = table := by
  cases data with
  | nil => simp at hi
  | cons d rest =>
      have hloop := padronLoop_first_fail now merge failAt
        ((d :: rest).map sanitizeKeys) 0 ⟨table, 0, 0⟩ i (Nat.zero_le _)
        (by simpa using hi) hf (fun j _ hj => hfirst j hj)
      have hres : insert_padron_data now failAt table (d :: rest) merge =
          (.error "SQLAlchemyError", table) := by
        simp only [insert_padron_data, hloop]
      rw [hres]
      exact ⟨rfl, rfl⟩

/-- Witness for `insert_padron_data_abort_amended`: the second row's
statement fails; the whole two-row load aborts and the committed table
is the original one-row table. -/
theorem insert_padron_data_abort_amended_witness :
    (insert_padron_data 7 (fun i => i == 1) [⟨[("cuenta", "B1")], 0, 0, false⟩]
        [[("cuenta", "B1")], [("cuenta", "B2")]] true).1 = .error "SQLAlchemyError" ∧
    (insert_padron_data 7 (fun i => i == 1) [⟨[("cuenta", "B1")], 0, 0, false⟩]
        [[("cuenta", "B1")], [("cuenta", "B2")]] true).2 =
      [⟨[("cuenta", "B1")], 0, 0, false⟩] :=
  insert_padron_data_abort_amended 7 (fun i => i == 1)
    [⟨[("cuenta", "B1")], 0, 0, false⟩] [[("cuenta", "B1")], [("cuenta", "B2")]] true
    1 (by decide) (by decide)
    (fun j hj => by
      have hj0 : j = 0 := by omega
      rw [hj0]
      decide)

/-- C8 counterexample: with two rows of which the second one's
statement fails, the load neither keeps the first row (the committed
table is the untouched empty table, not one with the first row
applied) nor reports a count of partial progress (the outcome is the
propagated exception, never an `ok` with counts). -/
theorem insert_padron_data_partial_rows_lost_counterexample :
    insert_padron_data 5 (fun i => i == 1) []
        [[("cuenta", "A1"), ("nombre", "Juan")], [("cuenta", "A2"), ("nombre", "Ana")]]
        true = (.error "SQLAlchemyError", []) ∧
    ∀ counts : Nat × Nat,
      (insert_padron_data 5 (fun i => i == 1) []
        [[("cuenta", "A1"), ("nombre", "Juan")], [("cuenta", "A2"), ("nombre", "Ana")]]
        true).1 ≠ .ok counts := by
  refine ⟨rfl, ?_⟩
  intro counts h
  have h1 : (insert_padron_data 5 (fun i => i == 1) []
      [[("cuenta", "A1"), ("nombre", "Juan")], [("cuenta", "A2"), ("nombre", "Ana")]]
      true).1 = .error "SQLAlchemyError" := rfl
  rw [h1] at h
  cases h

/-! ## C5 / C10 - CSV validation -/

theorem loadRow_ok_facts (acc : List Registro) (i : Nat) (r : CsvRow) (reg : Registro)
    (h : loadRow acc i r = .ok reg) :
    (∃ v, lookupA "cuenta" r.cells = some (some v)) ∧
    ordenOf r = some reg.orden_impresion ∧
    (∀ q ∈ acc, reg.orden_impresion ≠ q.orden_impresion) := by
  unfold loadRow at h
  cases hcu : lookupA "cuenta" r.cells with
  | none => simp [hcu] at h
  | some ov =>
      cases ov with
      | none => simp [hcu] at h
      | some v =>
          simp only [hcu] at h
          cases hor : lookupA "orden_impresion" r.cells with
          | none => simp [hor] at h
          | some oo =>
              cases oo with
              | none => simp [hor] at h
              | some s =>
                  simp only [hor] at h
                  cases hp : pyParseInt s with
                  | none => simp [hp] at h
                  | some n =>
                      simp only [hp] at h
                      by_cases hdup : (acc.any
                          fun q => q.orden_impresion == n) = true
                      · simp [hdup] at h
                      · rw [if_neg hdup] at h
                        cases hed : extraeDatos r.cells with
                        | error e => simp [hed] at h
                        | ok datos =>
                            simp only [hed, Except.ok.injEq] at h
                            refine ⟨⟨v, rfl⟩, ?_, ?_⟩
                            · rw [← h]
                              simp [ordenOf, hor, hp]
                            · intro q hq heq
                              apply hdup
                              rw [List.any_eq_true]
                              refine ⟨q, hq, ?_⟩
                              rw [← h] at heq
                              simp only at heq
                              simp [← heq]

theorem loadRowsLoop_ok_props :
    ∀ (rows : List CsvRow) (i : Nat) (acc regs : List Registro),
      loadRowsLoop i acc rows = .ok regs →
      (∀ r ∈ rows,
        (∃ v, lookupA "cuenta" r.cells = some (some v)) ∧
        (∃ n, ordenOf r = some n) ∧
        (∀ q ∈ acc, ordenOf r ≠ some q.orden_impresion)) ∧
      List.Pairwise (fun r1 r2 => ∀ n, ordenOf r1 = some n → ordenOf r2 ≠ some n)
        rows := by
  intro rows
  induction rows with
  | nil => exact fun i acc regs _ => ⟨fun r hr => absurd hr (List.not_mem_nil r), by simp⟩
  | cons r rs ih =>
      intro i acc regs h
      unfold loadRowsLoop at h
      cases hlr : loadRow acc i r with
      | error e => rw [hlr] at h; cases h
      | ok reg =>
          rw [hlr] at h
          obtain ⟨hfacts, hpair⟩ := ih (i + 1) (acc ++ [reg]) regs h
          obtain ⟨hcu, hord, hfresh⟩ := loadRow_ok_facts acc i r reg hlr
          refine ⟨?_, ?_⟩
          · intro r' hr'
            rcases List.mem_cons.mp hr' with rfl | hr''
            · refine ⟨hcu, ⟨reg.orden_impresion, hord⟩, ?_⟩
              intro q hq heq
              rw [hord] at heq
              exact hfresh q hq (Option.some.injEq _ _ ▸ heq)
            · obtain ⟨a, b, c⟩ := hfacts r' hr''
              exact ⟨a, b, fun q hq => c q (List.mem_append_left _ hq)⟩
          · rw [List.pairwise_cons]
            refine ⟨?_, hpair⟩
            intro r' hr' n hn
            obtain ⟨_, _, c⟩ := hfacts r' hr'
            have := c reg (List.mem_append_right _ (List.mem_singleton.mpr rfl))
            rw [hord] at hn
            cases hn
            exact this

theorem load_emission_csv_ok_loop (csv : CsvFile)
    (pr : List Registro × List String) (h : load_emission_csv csv = .ok pr) :
    ∃ regs, loadRowsLoop 1 [] csv.rows = .ok regs := by
  unfold load_emission_csv at h
  by_cases h1 : csv.fieldnames.contains "cuenta"
  · by_cases h2 : csv.fieldnames.contains "orden_impresion"
    · rw [if_neg (by simpa using h1), if_neg (by simpa using h2)] at h
      cases hl : loadRowsLoop 1 [] csv.rows with
      | error e => rw [hl] at h; simp [Bind.bind, Except.bind] at h
      | ok regs => exact ⟨regs, rfl⟩
    · rw [if_neg (by simpa using h1), if_pos (by simpa using h2)] at h
      cases h
  · rw [if_pos (by simpa using h1)] at h
    cases h

/-- C10: one malformed row is fatal to the whole load: if any row of
the CSV has a `print_order` value that does not parse as an integer,
or has no value in the `cuenta` column (missing cell or `None` from a
short row), then `load_emission_csv` raises, the whole run aborts with
zero output files, and the audit store is untouched. -/
theorem load_emission_csv_malformed_row_fatal (csv : CsvFile) (r : CsvRow)
    (hr : r ∈ csv.rows)
    (hbad : (∃ s, lookupA "orden_impresion" r.cells = some (some s) ∧
               pyParseInt s = none) ∨
            lookupA "cuenta" r.cells = none ∨
            lookupA "cuenta" r.cells = some none) :
    (∃ e, load_emission_csv csv = .error e) ∧
    ∀ (cfg : EngineConfig) (ro : String → Bool) (padron : List PadronData)
      (db : List Artifact),
      (process_complete_emission cfg ro csv padron db).2.1 = [] ∧
      (process_complete_emission cfg ro csv padron db).2.2 = db := by
  have herr : ∃ e, load_emission_csv csv = .error e := by
    cases hload : load_emission_csv csv with
    | error e => exact ⟨e, rfl⟩
    | ok pr =>
        obtain ⟨regs, hloop⟩ := load_emission_csv_ok_loop csv pr hload
        obtain ⟨hfacts, _⟩ := loadRowsLoop_ok_props csv.rows 1 [] regs hloop
        obtain ⟨⟨v, hv⟩, ⟨n, hn⟩, _⟩ := hfacts r hr
        rcases hbad with ⟨s, hs, hps⟩ | hc | hc
        · rw [show ordenOf r = none from by simp [ordenOf, hs, hps]] at hn
          cases hn
        · rw [hc] at hv; cases hv
        · rw [hc] at hv; cases hv
  obtain ⟨e, he⟩ := herr
  refine ⟨⟨e, he⟩, ?_⟩
  intro cfg ro padron db
  simp [process_complete_emission, he]

/-- Witness for `load_emission_csv_malformed_row_fatal`: a one-row CSV
whose `orden_impresion` value `"x"` does not parse. -/
theorem load_emission_csv_malformed_row_fatal_witness :
    (∃ e, load_emission_csv
      ⟨["cuenta", "orden_impresion"],
       [⟨[("cuenta", some "A1"), ("orden_impresion", some "x")]⟩]⟩ = .error e) ∧
    ∀ (cfg : EngineConfig) (ro : String → Bool) (padron : List PadronData)
      (db : List Artifact),
      (process_complete_emission cfg ro
        ⟨["cuenta", "orden_impresion"],
         [⟨[("cuenta", some "A1"), ("orden_impresion", some "x")]⟩]⟩ padron db).2.1
        = [] ∧
      (process_complete_emission cfg ro
        ⟨["cuenta", "orden_impresion"],
         [⟨[("cuenta", some "A1"), ("orden_impresion", some "x")]⟩]⟩ padron db).2.2
        = db :=
  load_emission_csv_malformed_row_fatal
    ⟨["cuenta", "orden_impresion"],
     [⟨[("cuenta", some "A1"), ("orden_impresion", some "x")]⟩]⟩
    ⟨[("cuenta", some "A1"), ("orden_impresion", some "x")]⟩
    (List.mem_singleton.mpr rfl)
    (Or.inl ⟨"x", by decide, by decide⟩)

/-- C5: two rows carrying the same `print_order` value make the run
fail during CSV loading - either the shared value does not parse (a
parse error on the first of them) or both parse to the same integer
and the duplicate check raises - before any PDF file is written and
before any artifact row is recorded. -/
theorem duplicate_print_order_fatal (csv : CsvFile)
    (l1 l2 l3 : List CsvRow) (r1 r2 : CsvRow) (s : String)
    (hrows : csv.rows = l1 ++ r1 :: l2 ++ r2 :: l3)
    (h1 : lookupA "orden_impresion" r1.cells = some (some s))
    (h2 : lookupA "orden_impresion" r2.cells = some (some s)) :
    (∃ e, load_emission_csv csv = .error e) ∧
    ∀ (cfg : EngineConfig) (ro : String → Bool) (padron : List PadronData)
      (db : List Artifact),
      (process_complete_emission cfg ro csv padron db).2.1 = [] ∧
      (process_complete_emission cfg ro csv padron db).2.2 = db := by
  have herr : ∃ e, load_emission_csv csv = .error e := by
    cases hload : load_emission_csv csv with
    | error e => exact ⟨e, rfl⟩
    | ok pr =>
        obtain ⟨regs, hloop⟩ := load_emission_csv_ok_loop csv pr hload
        obtain ⟨hfacts, hpair⟩ := loadRowsLoop_ok_props csv.rows 1 [] regs hloop
        rw [hrows] at hpair hfacts
        have hP : ∀ n, ordenOf r1 = some n → ordenOf r2 ≠ some n := by
          obtain ⟨_, _, hcross⟩ := List.pairwise_append.mp hpair
          exact hcross r1 (List.mem_append_right l1 (List.mem_cons_self r1 l2)) r2
            (List.mem_cons_self r2 l3)
        obtain ⟨_, ⟨n1, hn1⟩, _⟩ := hfacts r1
          (List.mem_append_left _
            (List.mem_append_right l1 (List.mem_cons_self r1 l2)))
        have ho1 : ordenOf r1 = pyParseInt s := by simp [ordenOf, h1]
        have ho2 : ordenOf r2 = pyParseInt s := by simp [ordenOf, h2]
        have hx : ordenOf r2 = some n1 := by rw [ho2, ← ho1]; exact hn1
        exact absurd hx (hP n1 hn1)
  obtain ⟨e, he⟩ := herr
  refine ⟨⟨e, he⟩, ?_⟩
  intro cfg ro padron db
  simp [process_complete_emission, he]

/-- Witness for `duplicate_print_order_fatal`: a two-row CSV in which
both rows carry `orden_impresion = "1"`. -/
theorem duplicate_print_order_fatal_witness :
    ∃ e, load_emission_csv
      ⟨["cuenta", "orden_impresion"],
       [⟨[("cuenta", some "A1"), ("orden_impresion", some "1")]⟩,
        ⟨[("cuenta", some "A2"), ("orden_impresion", some "1")]⟩]⟩ = .error e :=
  (duplicate_print_order_fatal
    ⟨["cuenta", "orden_impresion"],
     [⟨[("cuenta", some "A1"), ("orden_impresion", some "1")]⟩,
      ⟨[("cuenta", some "A2"), ("orden_impresion", some "1")]⟩]⟩
    [] [] [] ⟨[("cuenta", some "A1"), ("orden_impresion", some "1")]⟩
    ⟨[("cuenta", some "A2"), ("orden_impresion", some "1")]⟩ "1"
    rfl (by decide) (by decide)).1

end DocGen
